import Mathlib

/-!
# CliffWatch service worker — verification development

Shallow embedding of the CliffWatch service worker (`src/sw.js`, primary
"v3" variant) and proofs about its request routing, retrieval strategies,
lifecycle handlers, and push/notification handlers.

Strings are modelled as `List Char` so that the JavaScript string
operations (`includes`, `endsWith`, equality) become structurally
recursive Lean functions amenable to proof and to `decide`.
-/

set_option autoImplicit false

/-- Strings of the embedded program, modelled as lists of characters. -/
abbrev Str : Type := List Char

/-- `leadsWith p s` : `p` is an initial segment of `s`
(the JS `String.prototype.startsWith`). -/
def leadsWith : Str → Str → Bool
  | [], _ => true
  | _ :: _, [] => false
  | a :: p, b :: s => a == b && leadsWith p s

/-- `occursIn p s` : `p` occurs contiguously somewhere inside `s`
(the JS `String.prototype.includes`). -/
def occursIn : Str → Str → Bool
  | p, [] => p.isEmpty
  | p, b :: t => leadsWith p (b :: t) || occursIn p t

/-- `closesWith p s` : `p` is a final segment of `s`
(the JS `String.prototype.endsWith`). -/
def closesWith (p s : Str) : Bool :=
  leadsWith p.reverse s.reverse

theorem leadsWith_iff (p s : Str) :
    leadsWith p s = true ↔ ∃ t, s = p ++ t := by
  induction p generalizing s with
  | nil => simp [leadsWith]
  | cons a p ih =>
    cases s with
    | nil => simp [leadsWith]
    | cons b t =>
      simp only [leadsWith, Bool.and_eq_true, beq_iff_eq, ih, List.cons_append,
        List.cons.injEq]
      constructor
      · rintro ⟨rfl, u, rfl⟩
        exact ⟨u, rfl, rfl⟩
      · rintro ⟨u, rfl, rfl⟩
        exact ⟨rfl, u, rfl⟩

theorem occursIn_iff (p s : Str) :
    occursIn p s = true ↔ ∃ u v, s = u ++ p ++ v := by
  induction s with
  | nil =>
    simp only [occursIn, List.isEmpty_iff]
    constructor
    · rintro rfl
      exact ⟨[], [], rfl⟩
    · rintro ⟨u, v, h⟩
      rcases List.append_eq_nil.mp h.symm with ⟨h1, h2⟩
      exact (List.append_eq_nil.mp h1).2
  | cons b t ih =>
    simp only [occursIn, Bool.or_eq_true, leadsWith_iff, ih]
    constructor
    · rintro (⟨u, hu⟩ | ⟨u, v, rfl⟩)
      · exact ⟨[], u, by simpa using hu⟩
      · exact ⟨b :: u, v, rfl⟩
    · rintro ⟨u, v, h⟩
      cases u with
      | nil =>
        left
        exact ⟨v, by simpa using h⟩
      | cons c u =>
        right
        simp only [List.cons_append, List.cons.injEq] at h
        exact ⟨u, v, h.2⟩

theorem closesWith_iff (p s : Str) :
    closesWith p s = true ↔ ∃ u, s = u ++ p := by
  unfold closesWith
  rw [leadsWith_iff]
  constructor
  · rintro ⟨t, ht⟩
    refine ⟨t.reverse, ?_⟩
    have := congrArg List.reverse ht
    simpa using this
  · rintro ⟨u, rfl⟩
    exact ⟨u.reverse, by simp⟩

theorem closesWith_occursIn {p s : Str} (h : closesWith p s = true) :
    occursIn p s = true := by
  rcases (closesWith_iff p s).mp h with ⟨u, rfl⟩
  exact (occursIn_iff p (u ++ p)).mpr ⟨u, [], by simp⟩

theorem occursIn_trans {p q s : Str} (h1 : occursIn p q = true)
    (h2 : occursIn q s = true) : occursIn p s = true := by
  rcases (occursIn_iff p q).mp h1 with ⟨u, v, rfl⟩
  rcases (occursIn_iff _ s).mp h2 with ⟨x, y, rfl⟩
  exact (occursIn_iff p _).mpr ⟨x ++ u, v ++ y, by simp⟩

/-! ## Data model -/

/-- An HTTP response as the worker observes it: `ok` is the JS
`Response.ok` (status in the success range), `respType` is `Response.type`
(`"basic"` for same-origin). -/
structure Response where
  ok : Bool
  status : Nat
  respType : Str
  body : Str
  deriving DecidableEq, Repr

/-- The current CacheStore: a key → response mapping (keys are request
URLs; the worker only ever caches GET requests). Kept as an association
list; `cachePut` prepends, so lookups see the most recent entry, which is
observably the Cache API `put` replacement semantics. -/
abbrev Cache : Type := List (Str × Response)

/-- First-match lookup: `caches.match(request)` on the current store. -/
def cacheGet : Cache → Str → Option Response
  | [], _ => none
  | (k, r) :: t, u => if u = k then some r else cacheGet t u

/-- `cache.put(request, response)`: store under the key, shadowing any
prior entry. -/
def cachePut (c : Cache) (k : Str) (r : Response) : Cache :=
  (k, r) :: c

/-- An intercepted request as the fetch listener sees it: method, the full
URL string, and the `hostname`/`pathname` components `new URL(...)`
exposes, plus the optional Accept header. -/
structure Request where
  method : Str
  url : Str
  hostname : Str
  pathname : Str
  accept : Option Str
  deriving DecidableEq, Repr

/-! String constants of `src/sw.js`. -/

def getMethod : Str := "GET".toList

def arcgisDomain : Str := "arcgis.com".toList

def servicesArcgis : Str := "services.arcgis.com".toList

def services1Arcgis : Str := "services1.arcgis.com".toList

def htmlAccept : Str := "text/html".toList

def rootPath : Str := "/".toList

def htmlExt : Str := ".html".toList

def indexHtmlKey : Str := "/index.html".toList

def basicType : Str := "basic".toList

def cacheName : Str := "cliff-watch-v3".toList

/-! ## InterceptionRouter (fetch listener of `src/sw.js`, lines 56–79) -/

/-- The live-data test of `src/sw.js:63-65`: substring containment on the
full request URL (`event.request.url.includes('arcgis.com') || ...`). -/
def isLiveUrl (url : Str) : Bool :=
  occursIn arcgisDomain url || occursIn servicesArcgis url ||
    occursIn services1Arcgis url

/-- The navigation test of `src/sw.js:70-72`: Accept header mentions
`text/html`, or the path is the root, or it ends in `.html`. -/
def isNavigationReq (req : Request) : Bool :=
  (match req.accept with
   | some a => occursIn htmlAccept a
   | none => false) ||
  req.pathname == rootPath || closesWith htmlExt req.pathname

/-- Request classification (spec §4.1), as the if-chain of the `src/sw.js`
fetch listener realises it for GET requests. -/
inductive Classification where
  | LiveOnly
  | Navigation
  | StaticAsset
  deriving DecidableEq, Repr

/-- `classify`: the routing decision of the `src/sw.js` fetch listener
for a GET request. -/
def classify (req : Request) : Classification :=
  if isLiveUrl req.url then .LiveOnly
  else if isNavigationReq req then .Navigation
  else .StaticAsset

/-- Exact-suffix domain match, as the spec words it (`*.hazard-service.example`):
the hostname is the domain itself or ends in `"." ++ domain`. This is the
SPEC's wording of live-data matching, kept for comparison with the code's
`isLiveUrl`. -/
def hostSuffixMatch (host domain : Str) : Bool :=
  host == domain || closesWith ('.' :: domain) host

/-! ## StrategyHandlers (`src/sw.js`, lines 85–139)

A strategy invocation is modelled against an explicit network outcome:
`net = some r` means `fetch(request)` resolved with response `r`;
`net = none` means the fetch rejected (network error). The result records
the value returned to the caller (`Except.error ()` models a rethrown
failure), the cache state after the invocation, how many network fetches
were performed, how many CacheStore lookups were performed, and the list
of entries written into the CacheStore. -/

deriving instance DecidableEq for Except

structure StratResult where
  response : Except Unit Response
  cache : Cache
  fetches : Nat
  reads : Nat
  written : List (Str × Response)
  deriving DecidableEq, Repr

/-- `networkFirstStrategy` (`src/sw.js:85-112`): fetch once; if it
resolves, cache a copy when `ok` and return it (whatever its status); if
it rejects, fall back to the exact cache match, then to the cached
`/index.html` shell, then rethrow. -/
def networkFirstStrategy (net : Option Response) (url : Str) (c : Cache) :
    StratResult :=
  match net with
  | some r =>
    if r.ok then
      { response := .ok r, cache := cachePut c url r, fetches := 1,
        reads := 0, written := [(url, r)] }
    else
      { response := .ok r, cache := c, fetches := 1, reads := 0,
        written := [] }
  | none =>
    match cacheGet c url with
    | some hit =>
      { response := .ok hit, cache := c, fetches := 1, reads := 1,
        written := [] }
    | none =>
      match cacheGet c indexHtmlKey with
      | some shell =>
        { response := .ok shell, cache := c, fetches := 1, reads := 2,
          written := [] }
      | none =>
        { response := .error (), cache := c, fetches := 1, reads := 2,
          written := [] }

/-- `cacheFirstStrategy` (`src/sw.js:118-139`): look up the cache; on a
hit return it with no fetch and no write; on a miss fetch, cache a copy
when `ok` and same-origin (`type === 'basic'`), return the response, and
rethrow a network error. -/
def cacheFirstStrategy (net : Option Response) (url : Str) (c : Cache) :
    StratResult :=
  match cacheGet c url with
  | some hit =>
    { response := .ok hit, cache := c, fetches := 0, reads := 1,
      written := [] }
  | none =>
    match net with
    | some r =>
      if r.ok && r.respType == basicType then
        { response := .ok r, cache := cachePut c url r, fetches := 1,
          reads := 1, written := [(url, r)] }
      else
        { response := .ok r, cache := c, fetches := 1, reads := 1,
          written := [] }
    | none =>
      { response := .error (), cache := c, fetches := 1, reads := 1,
        written := [] }

/-- The complete fetch listener (`src/sw.js:56-79`): `none` means the
listener returned without calling `respondWith` (the request passes
through to the network untouched, with no cache interaction); `some`
carries the dispatched strategy's result. -/
def handleFetchEvent (net : Option Response) (req : Request) (c : Cache) :
    Option StratResult :=
  if req.method == getMethod then
    if isLiveUrl req.url then none
    else if isNavigationReq req then some (networkFirstStrategy net req.url c)
    else some (cacheFirstStrategy net req.url c)
  else none

/-- Cache state after the fetch event (unchanged when not intercepted). -/
def cacheAfterFetch (net : Option Response) (req : Request) (c : Cache) :
    Cache :=
  match handleFetchEvent net req c with
  | none => c
  | some r => r.cache

/-- CacheStore lookups performed during the fetch event. -/
def readsOfFetch (net : Option Response) (req : Request) (c : Cache) : Nat :=
  match handleFetchEvent net req c with
  | none => 0
  | some r => r.reads

/-- Entries written into the CacheStore during the fetch event. -/
def writtenByFetch (net : Option Response) (req : Request) (c : Cache) :
    List (Str × Response) :=
  match handleFetchEvent net req c with
  | none => []
  | some r => r.written

/-! ## LifecycleController (`src/sw.js`, lines 21–53)

Install is modelled against a network function `netOf : Str → Option Response`
(`none` = the fetch for that asset rejects). `cache.add(url)` fetches and
stores on a success response, rejecting otherwise; the `.catch` in
`src/sw.js:30` converts each per-asset rejection into a fulfilled promise,
so the surrounding `Promise.allSettled` chain never rejects and the
install event always settles successfully, after which `skipWaiting()`
is requested. -/

/-- `cache.add(url)` before the `.catch`: rejects (`Except.error`) when
the fetch rejects or the response is not ok. -/
def cacheAddRaw (netOf : Str → Option Response) (c : Cache) (url : Str) :
    Except Unit Cache :=
  match netOf url with
  | some r => if r.ok then .ok (cachePut c url r) else .error ()
  | none => .error ()

/-- `cache.add(url).catch(log)` (`src/sw.js:30`): an individual failure is
logged and swallowed, leaving the store untouched. -/
def cacheAddCaught (netOf : Str → Option Response) (c : Cache) (url : Str) :
    Cache :=
  match cacheAddRaw netOf c url with
  | .ok c2 => c2
  | .error _ => c

/-- Populating the store with the baseline asset list, one caught add per
asset (`Promise.allSettled(STATIC_ASSETS.map(...))`). -/
def installCache (netOf : Str → Option Response) (assets : List Str)
    (c : Cache) : Cache :=
  assets.foldl (cacheAddCaught netOf) c

/-- Did `cache.add` succeed for this URL: the asset was fetchable with a
success response. -/
def assetCached (netOf : Str → Option Response) (url : Str) : Bool :=
  match netOf url with
  | some r => r.ok
  | none => false

structure InstallResult where
  cache : Cache
  completed : Bool
  skipWaitingRequested : Bool
  deriving DecidableEq, Repr

/-- The install listener (`src/sw.js:21-36`): open the store for the
current version, attempt every baseline asset with per-asset catch, then
request `skipWaiting()`. No step of the chain can reject, so the event
always completes. -/
def installHandler (netOf : Str → Option Response) (assets : List Str) :
    InstallResult :=
  { cache := installCache netOf assets [],
    completed := true,
    skipWaitingRequested := true }

/-- Events performed by the activate listener, in order. -/
inductive ActEvent where
  | del (name : Str)
  | claimClients
  deriving DecidableEq, Repr

/-- The activate listener (`src/sw.js:39-53`) as an ordered event trace:
every store whose tag differs from the current version tag is deleted,
and `clients.claim()` runs strictly after the whole purge
(`.then(() => self.clients.claim())`). -/
def activateEvents (current : Str) (stores : List Str) : List ActEvent :=
  (stores.filter (fun n => n != current)).map ActEvent.del ++
    [ActEvent.claimClients]

/-- The store tags that survive activation. -/
def survivingStores (current : Str) (stores : List Str) : List Str :=
  stores.filter (fun n => n == current)

/-! ## NotificationDispatcher (`src/sw.js`, lines 142–198) -/

/-- The parsed top-level fields of a structured push payload; `none`
means the field is absent from the JSON. `dataUrl` stands for a
replacement of the whole `data` object (represented by its `url`). -/
structure PushOverride where
  title : Option Str
  body : Option Str
  icon : Option Str
  badge : Option Str
  tag : Option Str
  dataUrl : Option Str
  deriving DecidableEq, Repr

/-- What `event.data` held: absent, valid JSON, or text that fails to
parse as JSON. -/
inductive PushData where
  | noData
  | structured (o : PushOverride)
  | plain (t : Str)
  deriving DecidableEq, Repr

/-- The resolved NotificationPayload fields. -/
structure NotificationPayload where
  title : Str
  body : Str
  icon : Str
  badge : Str
  tag : Str
  dataUrl : Str
  deriving DecidableEq, Repr

/-- The defaults of `src/sw.js:145-152`. -/
def defaultPayload : NotificationPayload :=
  { title := "Cliff Watch Alert".toList,
    body := "Risk level has changed".toList,
    icon := "/icon-192.png".toList,
    badge := "/icon-192.png".toList,
    tag := "cliff-watch-alert".toList,
    dataUrl := rootPath }

/-- Payload resolution (`src/sw.js:154-160`): structured data is
shallow-merged over the defaults (`{...data, ...event.data.json()}`, a
present field wins); a parse failure overwrites only `body` with the raw
text. -/
def resolvePush (d : PushData) : NotificationPayload :=
  match d with
  | .noData => defaultPayload
  | .structured o =>
    { title := o.title.getD defaultPayload.title,
      body := o.body.getD defaultPayload.body,
      icon := o.icon.getD defaultPayload.icon,
      badge := o.badge.getD defaultPayload.badge,
      tag := o.tag.getD defaultPayload.tag,
      dataUrl := o.dataUrl.getD defaultPayload.dataUrl }
  | .plain t => { defaultPayload with body := t }

def criticalMark : Str := "Critical".toList

def highMark : Str := "High".toList

/-- The notification as presented by `showNotification`
(`src/sw.js:162-172`). -/
structure ShownNotification where
  title : Str
  body : Str
  icon : Str
  badge : Str
  tag : Str
  dataUrl : Str
  vibrate : List Nat
  requireInteraction : Bool
  deriving DecidableEq, Repr

/-- The push listener (`src/sw.js:142-173`): resolve the payload and
present it; `requireInteraction` is
`data.title.includes('Critical') || data.title.includes('High')`. -/
def pushHandler (d : PushData) : ShownNotification :=
  let p := resolvePush d
  { title := p.title, body := p.body, icon := p.icon, badge := p.badge,
    tag := p.tag, dataUrl := p.dataUrl, vibrate := [200, 100, 200],
    requireInteraction :=
      occursIn criticalMark p.title || occursIn highMark p.title }

/-- An open client window: its URL and whether it exposes a `focus`
method (`'focus' in client`; window clients always do on real platforms,
kept explicit to mirror the code's guard). -/
structure ClientWindow where
  url : Str
  canFocus : Bool
  deriving DecidableEq, Repr

/-- What the click handler does after closing the notification. -/
inductive ClickAction where
  | focusClient (w : ClientWindow)
  | openWindow (url : Str)
  | noAction
  deriving DecidableEq, Repr

structure ClickResult where
  notificationClosed : Bool
  action : ClickAction
  deriving DecidableEq, Repr

/-- `event.notification.data?.url || '/'` — absent data and the falsy
empty string both fall back to the root. -/
def resolveTargetUrl (dataUrl : Option Str) : Str :=
  match dataUrl with
  | some u => if u.isEmpty then rootPath else u
  | none => rootPath

/-- The notificationclick listener (`src/sw.js:176-198`): close the
notification; enumerate all windows (`matchAll` with
`includeUncontrolled: true`, so `windows` is every open window); focus
the first whose URL contains this worker's origin and which exposes
`focus`; otherwise open a new window at the target URL when the platform
provides `clients.openWindow`. -/
def notificationClickHandler (origin : Str) (dataUrl : Option Str)
    (windows : List ClientWindow) (canOpenWindow : Bool) : ClickResult :=
  let target := resolveTargetUrl dataUrl
  match windows.find? (fun w => occursIn origin w.url && w.canFocus) with
  | some w => { notificationClosed := true, action := .focusClient w }
  | none =>
    if canOpenWindow then
      { notificationClosed := true, action := .openWindow target }
    else
      { notificationClosed := true, action := .noAction }

/-! ## Helper lemmas -/

theorem hostSuffix_occursIn {host domain : Str}
    (h : hostSuffixMatch host domain = true) :
    occursIn domain host = true := by
  unfold hostSuffixMatch at h
  simp only [Bool.or_eq_true] at h
  rcases h with h1 | h2
  · have : host = domain := by simpa using h1
    subst this
    exact (occursIn_iff host host).mpr ⟨[], [], by simp⟩
  · rcases (closesWith_iff _ host).mp h2 with ⟨u, rfl⟩
    exact (occursIn_iff domain _).mpr ⟨u ++ ['.'], [], by simp⟩

theorem filter_beq_self_of_nodup {l : List Str} {a : Str}
    (hnd : l.Nodup) (ha : a ∈ l) :
    l.filter (fun n => n == a) = [a] := by
  induction l with
  | nil => cases ha
  | cons b t ih =>
    rcases List.nodup_cons.mp hnd with ⟨hbt, hndt⟩
    by_cases hba : b = a
    · subst hba
      have hnil : t.filter (fun n => n == b) = [] := by
        simp only [List.filter_eq_nil_iff, beq_iff_eq]
        intro x hx hxb
        exact hbt (hxb ▸ hx)
      simp [List.filter_cons, hnil]
    · have hmem : a ∈ t := by
        rcases List.mem_cons.mp ha with h | h
        · exact absurd h.symm hba
        · exact h
      have hba2 : (b == a) = false := by simp [hba]
      simp [List.filter_cons, hba2, ih hndt hmem]

/-! ## Claims -/

/-- A request that the worker never serves: a non-GET submission. -/
def postReq : Request :=
  { method := "POST".toList,
    url := "https://cliffwatch.org/api/report".toList,
    hostname := "cliffwatch.org".toList,
    pathname := "/api/report".toList,
    accept := none }

/-- C9: a request whose method is not GET is never intercepted: the fetch
listener registers no response, no strategy runs, and the CacheStore sees
no read and no write. -/
theorem nonGet_not_intercepted (net : Option Response) (req : Request)
    (c : Cache) (h : req.method ≠ getMethod) :
    handleFetchEvent net req c = none ∧
    cacheAfterFetch net req c = c ∧
    readsOfFetch net req c = 0 ∧
    writtenByFetch net req c = [] := by
  have hb : (req.method == getMethod) = false := by simpa using h
  simp [handleFetchEvent, cacheAfterFetch, readsOfFetch, writtenByFetch, hb]

/-- Witness for C9: the concrete POST request passes through untouched. -/
theorem nonGet_not_intercepted_witness :
    handleFetchEvent none postReq [] = none ∧
    cacheAfterFetch none postReq [] = [] ∧
    readsOfFetch none postReq [] = 0 ∧
    writtenByFetch none postReq [] = [] :=
  nonGet_not_intercepted none postReq [] (by decide)

/-- C5: a GET request whose host lies under the live-data domain (exact
suffix match, hostname occurring in the URL as every well-formed URL has
it) is not intercepted: no CacheStore read, no write, cache unchanged. -/
theorem liveDomain_no_cache_interaction (net : Option Response)
    (req : Request) (c : Cache) (hm : req.method = getMethod)
    (hhost : hostSuffixMatch req.hostname arcgisDomain = true)
    (hsub : occursIn req.hostname req.url = true) :
    handleFetchEvent net req c = none ∧
    cacheAfterFetch net req c = c ∧
    readsOfFetch net req c = 0 ∧
    writtenByFetch net req c = [] := by
  have hlive : isLiveUrl req.url = true := by
    have hdom : occursIn arcgisDomain req.url = true :=
      occursIn_trans (hostSuffix_occursIn hhost) hsub
    simp [isLiveUrl, hdom]
  simp [handleFetchEvent, cacheAfterFetch, readsOfFetch, writtenByFetch,
    hm, hlive]

/-- A request to a true subdomain of the live-data service. -/
def liveReq : Request :=
  { method := getMethod,
    url := "https://services.arcgis.com/feed".toList,
    hostname := "services.arcgis.com".toList,
    pathname := "/feed".toList,
    accept := none }

/-- Witness for C5: the concrete live-data request is left alone. -/
theorem liveDomain_no_cache_interaction_witness :
    handleFetchEvent none liveReq [] = none ∧
    cacheAfterFetch none liveReq [] = [] ∧
    readsOfFetch none liveReq [] = 0 ∧
    writtenByFetch none liveReq [] = [] :=
  liveDomain_no_cache_interaction none liveReq [] rfl (by decide) (by decide)

/-- A GET request to an unrelated host whose query string merely contains
the live-data domain as a substring. -/
def substringReq : Request :=
  { method := getMethod,
    url := "https://example.com/?ref=arcgis.com".toList,
    hostname := "example.com".toList,
    pathname := "/".toList,
    accept := none }

/-- Counterexample for C2: this request's host is NOT an exact suffix
match of the live-data domain, yet the code classifies it LiveOnly,
because `src/sw.js:63` tests substring containment on the whole URL. -/
theorem classify_liveOnly_suffix_cex :
    classify substringReq = .LiveOnly ∧
    hostSuffixMatch substringReq.hostname arcgisDomain = false := by
  decide

/-- C2 (amended): classification returns LiveOnly iff the full request
URL contains the live-data domain string as a substring; in particular
every request to a true subdomain of the live-data domain (whose hostname
occurs in its URL) is LiveOnly, but so are unrelated requests whose URL
contains the string elsewhere. -/
theorem classify_liveOnly_iff_url_contains (req : Request) :
    (classify req = .LiveOnly ↔ occursIn arcgisDomain req.url = true) ∧
    (occursIn req.hostname req.url = true →
      hostSuffixMatch req.hostname arcgisDomain = true →
      classify req = .LiveOnly) := by
  have hlive : isLiveUrl req.url = occursIn arcgisDomain req.url := by
    unfold isLiveUrl
    cases h : occursIn arcgisDomain req.url with
    | true => simp [h]
    | false =>
      have h2 : occursIn servicesArcgis req.url = false := by
        cases hs : occursIn servicesArcgis req.url with
        | false => rfl
        | true =>
          have : occursIn arcgisDomain req.url = true :=
            occursIn_trans (by decide) hs
          simp [this] at h
      have h3 : occursIn services1Arcgis req.url = false := by
        cases hs : occursIn services1Arcgis req.url with
        | false => rfl
        | true =>
          have : occursIn arcgisDomain req.url = true :=
            occursIn_trans (by decide) hs
          simp [this] at h
      simp [h, h2, h3]
  have hcl : classify req = .LiveOnly ↔ isLiveUrl req.url = true := by
    unfold classify
    cases hl : isLiveUrl req.url with
    | true => simp
    | false => cases hn : isNavigationReq req <;> simp [hn]
  constructor
  · rw [hcl, hlive]
  · intro hsub hhost
    rw [hcl, hlive]
    exact occursIn_trans (hostSuffix_occursIn hhost) hsub

/-- Witness for C2 (amended): the subdomain request `liveReq` is
classified LiveOnly, and the iff holds there concretely. -/
theorem classify_liveOnly_iff_url_contains_witness :
    classify liveReq = .LiveOnly ∧ occursIn arcgisDomain liveReq.url = true :=
  ⟨(classify_liveOnly_iff_url_contains liveReq).2 (by decide) (by decide),
   by decide⟩

/-- A navigation GET request for the application root. -/
def rootReq : Request :=
  { method := getMethod,
    url := "https://cliffwatch.org/".toList,
    hostname := "cliffwatch.org".toList,
    pathname := rootPath,
    accept := some htmlAccept }

/-- A non-success network response (HTTP 500). -/
def errResponse : Response :=
  { ok := false, status := 500, respType := basicType,
    body := "server error".toList }

/-- A previously cached success response for the root page. -/
def cachedRoot : Response :=
  { ok := true, status := 200, respType := basicType,
    body := "cached shell".toList }

/-- A store holding the root page. -/
def rootCache : Cache := [(rootReq.url, cachedRoot)]

/-- Counterexample for C1: for a Navigation GET whose single fetch
resolves with a non-success status while an exact cache match exists, the
handler returns the non-success network response — a non-success status
is NOT treated as failure and does not trigger the cache fallback
(`src/sw.js:87-95`: only a rejected fetch reaches the catch block). -/
theorem networkFirst_status_not_failure_cex :
    classify rootReq = .Navigation ∧
    cacheGet rootCache rootReq.url = some cachedRoot ∧
    errResponse.ok = false ∧
    handleFetchEvent (some errResponse) rootReq rootCache =
      some (networkFirstStrategy (some errResponse) rootReq.url rootCache) ∧
    (networkFirstStrategy (some errResponse) rootReq.url rootCache).response
      = .ok errResponse ∧
    errResponse ≠ cachedRoot := by
  decide

/-- C1 (amended): NetworkFirst performs exactly one fetch; any RESOLVED
response — success or not — is returned to the caller (non-success
responses are merely not cached); only a REJECTED fetch falls back to the
exact cache match, then to the cached `/index.html` shell, and only if
both lookups miss is the failure propagated. -/
theorem networkFirst_fallback_chain (net : Option Response) (url : Str)
    (c : Cache) :
    (networkFirstStrategy net url c).fetches = 1 ∧
    (∀ r, net = some r →
      (networkFirstStrategy net url c).response = .ok r) ∧
    (∀ r, net = some r → r.ok = false →
      (networkFirstStrategy net url c).cache = c ∧
      (networkFirstStrategy net url c).written = []) ∧
    (net = none → ∀ hit, cacheGet c url = some hit →
      (networkFirstStrategy net url c).response = .ok hit ∧
      (networkFirstStrategy net url c).cache = c) ∧
    (net = none → cacheGet c url = none →
      ∀ shell, cacheGet c indexHtmlKey = some shell →
      (networkFirstStrategy net url c).response = .ok shell) ∧
    (net = none → cacheGet c url = none → cacheGet c indexHtmlKey = none →
      (networkFirstStrategy net url c).response = .error ()) := by
  refine ⟨?_, ?_, ?_, ?_, ?_, ?_⟩
  · cases net with
    | none =>
      unfold networkFirstStrategy
      cases h1 : cacheGet c url <;> cases h2 : cacheGet c indexHtmlKey <;>
        simp [h1, h2]
    | some r => cases hr : r.ok <;> simp [networkFirstStrategy, hr]
  · rintro r rfl
    cases hr : r.ok <;> simp [networkFirstStrategy, hr]
  · rintro r rfl hr
    simp [networkFirstStrategy, hr]
  · rintro rfl hit hhit
    simp [networkFirstStrategy, hhit]
  · rintro rfl hmiss shell hshell
    simp [networkFirstStrategy, hmiss, hshell]
  · rintro rfl hmiss hshell
    simp [networkFirstStrategy, hmiss, hshell]

/-- Witness for C1 (amended): offline (rejected fetch) with the root page
cached, the handler serves the cached copy and leaves the store alone. -/
theorem networkFirst_fallback_chain_witness :
    (networkFirstStrategy none rootReq.url rootCache).response
      = .ok cachedRoot ∧
    (networkFirstStrategy none rootReq.url rootCache).cache = rootCache :=
  (networkFirst_fallback_chain none rootReq.url rootCache).2.2.2.1 rfl
    cachedRoot (by decide)

/-- The cache state after `n` successive CacheFirst invocations for the
same key (`nets i` is the network outcome offered to the `i`-th call). -/
def cacheFirstRepeat (nets : Nat → Option Response) (url : Str) :
    Nat → Cache → Cache
  | 0, c => c
  | n + 1, c =>
    cacheFirstRepeat nets url n (cacheFirstStrategy (nets n) url c).cache

/-- C3: CacheFirst is idempotent. When the key is in the store, a call
returns the stored response with no fetch and no write and leaves the
store unchanged; and every later call for the same key — whatever the
network would have answered — returns that same stored response, as long
as the store is not replaced or cleared in between. -/
theorem cacheFirst_idempotent (nets : Nat → Option Response) (url : Str)
    (c : Cache) (r : Response) (h : cacheGet c url = some r) :
    cacheFirstStrategy (nets 0) url c =
      { response := .ok r, cache := c, fetches := 0, reads := 1,
        written := [] } ∧
    (∀ n, cacheFirstRepeat nets url n c = c) ∧
    (∀ n net2, cacheFirstStrategy net2 url (cacheFirstRepeat nets url n c) =
      { response := .ok r, cache := c, fetches := 0, reads := 1,
        written := [] }) := by
  have hone : ∀ net2, cacheFirstStrategy net2 url c =
      { response := .ok r, cache := c, fetches := 0, reads := 1,
        written := [] } := by
    intro net2
    simp [cacheFirstStrategy, h]
  have hrep : ∀ n, cacheFirstRepeat nets url n c = c := by
    intro n
    induction n with
    | zero => rfl
    | succ m ih =>
      show cacheFirstRepeat nets url m
        (cacheFirstStrategy (nets m) url c).cache = c
      rw [hone (nets m)]
      exact ih
  exact ⟨hone (nets 0), hrep, fun n net2 => by rw [hrep n]; exact hone net2⟩

/-- Witness for C3: with the root page cached, five repeated requests
leave the store unchanged and a further call still serves the cached
response without fetching. -/
theorem cacheFirst_idempotent_witness :
    cacheFirstStrategy none rootReq.url rootCache =
      { response := .ok cachedRoot, cache := rootCache, fetches := 0,
        reads := 1, written := [] } ∧
    cacheFirstRepeat (fun _ => none) rootReq.url 5 rootCache = rootCache :=
  ⟨(cacheFirst_idempotent (fun _ => none) rootReq.url rootCache cachedRoot
      (by decide)).1,
   (cacheFirst_idempotent (fun _ => none) rootReq.url rootCache cachedRoot
      (by decide)).2.1 5⟩

/-- C4: given that install created the store for the current version tag,
activation leaves exactly that one store: it enumerates all store tags,
deletes every tag that differs from the current one, and claims the open
clients only after the whole purge (the claim event is the trace's last
event, strictly after every deletion). -/
theorem activation_single_store (current : Str) (stores : List Str)
    (hnd : stores.Nodup) (hmem : current ∈ stores) :
    survivingStores current stores = [current] ∧
    (∃ doomed : List Str,
      activateEvents current stores =
        doomed.map ActEvent.del ++ [ActEvent.claimClients] ∧
      ∀ n ∈ doomed, n ≠ current) ∧
    (activateEvents current stores).getLast? = some ActEvent.claimClients := by
  refine ⟨filter_beq_self_of_nodup hnd hmem, ?_, ?_⟩
  · refine ⟨stores.filter (fun n => n != current), rfl, ?_⟩
    intro n hn
    have := List.of_mem_filter hn
    simpa using this
  · unfold activateEvents
    simp

/-- The store tag of the superseded worker generation. -/
def oldCacheName : Str := "cliff-watch-v1".toList

/-- Witness for C4: activating `cliff-watch-v3` over the pair of stores
`{cliff-watch-v1, cliff-watch-v3}` leaves exactly the current store, and
the claim event closes the trace. -/
theorem activation_single_store_witness :
    survivingStores cacheName [oldCacheName, cacheName] = [cacheName] ∧
    (activateEvents cacheName [oldCacheName, cacheName]).getLast? =
      some ActEvent.claimClients :=
  ⟨(activation_single_store cacheName [oldCacheName, cacheName]
      (by decide) (by decide)).1,
   (activation_single_store cacheName [oldCacheName, cacheName]
      (by decide) (by decide)).2.2⟩

/-! Install lemmas (keys present after populating the store). -/

theorem cacheGet_cachePut_ne {c : Cache} {k u : Str} {r : Response}
    (h : u ≠ k) : cacheGet (cachePut c k r) u = cacheGet c u := by
  simp [cachePut, cacheGet, h]

theorem cacheGet_cacheAddCaught_ne (netOf : Str → Option Response)
    {c : Cache} {a u : Str} (h : u ≠ a) :
    cacheGet (cacheAddCaught netOf c a) u = cacheGet c u := by
  unfold cacheAddCaught cacheAddRaw
  cases netOf a with
  | none => rfl
  | some r =>
    cases hr : r.ok with
    | false => simp [hr]
    | true => simp [hr, cacheGet_cachePut_ne h]

theorem cacheGet_cacheAddCaught_self (netOf : Str → Option Response)
    (c : Cache) (a : Str) :
    (cacheGet (cacheAddCaught netOf c a) a).isSome =
      ((cacheGet c a).isSome || assetCached netOf a) := by
  unfold cacheAddCaught cacheAddRaw assetCached
  cases netOf a with
  | none => simp
  | some r =>
    cases hr : r.ok with
    | false => simp [hr]
    | true => simp [hr, cachePut, cacheGet]

theorem cacheGet_installCache (netOf : Str → Option Response)
    (assets : List Str) (c : Cache) (u : Str) :
    (cacheGet (installCache netOf assets c) u).isSome =
      ((cacheGet c u).isSome ||
        (decide (u ∈ assets) && assetCached netOf u)) := by
  induction assets generalizing c with
  | nil => simp [installCache]
  | cons a t ih =>
    have hstep : installCache netOf (a :: t) c =
        installCache netOf t (cacheAddCaught netOf c a) := rfl
    rw [hstep, ih]
    by_cases hua : u = a
    · subst hua
      rw [cacheGet_cacheAddCaught_self]
      cases hc : assetCached netOf u <;> simp [List.mem_cons]
    · rw [cacheGet_cacheAddCaught_ne netOf hua]
      have : decide (u ∈ a :: t) = decide (u ∈ t) := by
        simp [List.mem_cons, hua]
      rw [this]

/-- The success response served for `/manifest.json` in the install
scenario. -/
def manifestResp : Response :=
  { ok := true, status := 200, respType := basicType, body := "{}".toList }

/-- The scenario network: `/manifest.json` reachable, everything else
(notably `/missing.png`) unreachable. -/
def scenarioNet : Str → Option Response := fun u =>
  if u = "/manifest.json".toList then some manifestResp else none

/-- C6: install is partial-success. For every baseline asset list and
network behaviour, the install handler completes and requests immediate
activation eligibility, and the resulting store holds a key exactly when
that key is a listed asset whose individual `cache.add` succeeded. In the
spec's scenario — list `["/manifest.json", "/missing.png"]` with
`/missing.png` unreachable — install completes with the store holding
`/manifest.json` only. -/
theorem install_partial_success (netOf : Str → Option Response)
    (assets : List Str) (u : Str) :
    (installHandler netOf assets).completed = true ∧
    (installHandler netOf assets).skipWaitingRequested = true ∧
    ((cacheGet (installHandler netOf assets).cache u).isSome = true ↔
      u ∈ assets ∧ assetCached netOf u = true) ∧
    (installHandler scenarioNet
        ["/manifest.json".toList, "/missing.png".toList]).cache =
      [("/manifest.json".toList, manifestResp)] := by
  refine ⟨rfl, rfl, ?_, by decide⟩
  show (cacheGet (installCache netOf assets []) u).isSome = true ↔ _
  rw [cacheGet_installCache]
  simp [cacheGet]

/-- The concrete override carried by the spec's scenario payload
`{"title":"Critical Landslide Risk","body":"Risk elevated"}`. -/
def criticalOverride : PushOverride :=
  { title := some "Critical Landslide Risk".toList,
    body := some "Risk elevated".toList,
    icon := none, badge := none, tag := none, dataUrl := none }

/-- C7: the presented notification demands interaction exactly when the
resolved title (default, or the title merged from a successfully parsed
structured payload) contains the severity marker "Critical" or "High";
the scenario payload `{"title":"Critical Landslide Risk",...}` yields
`requireInteraction = true`. -/
theorem push_requireInteraction_iff (d : PushData) :
    ((pushHandler d).requireInteraction = true ↔
      (occursIn criticalMark (resolvePush d).title = true ∨
       occursIn highMark (resolvePush d).title = true)) ∧
    (pushHandler (.structured criticalOverride)).requireInteraction
      = true := by
  constructor
  · simp [pushHandler]
  · decide

/-- Under the platform invariant that every window client exposes
`focus`, the guarded search of `src/sw.js:187-191` finds exactly the
first window whose URL contains the worker's origin. -/
theorem find_focus_eq_find_url {origin : Str} {ws : List ClientWindow}
    (hf : ∀ w ∈ ws, w.canFocus = true) :
    ws.find? (fun w => occursIn origin w.url && w.canFocus) =
      ws.find? (fun w => occursIn origin w.url) := by
  induction ws with
  | nil => rfl
  | cons a t ih =>
    have ha : a.canFocus = true := hf a (List.mem_cons_self a t)
    have iht := ih (fun w hw => hf w (List.mem_cons_of_mem a hw))
    cases h : occursIn origin a.url <;>
      simp [List.find?_cons, h, ha, iht]

/-- This worker's origin. -/
def workerOrigin : Str := "https://cliffwatch.org".toList

/-- A URL shares an origin when it is that origin or extends it past the
`/` path boundary. This is the SPEC's wording of the focus condition for
notification clicks ("any window's URL shares this worker's origin"),
kept for comparison with the code's containment test — the analogue of
`hostSuffixMatch` versus `isLiveUrl`. -/
def urlSharesOrigin (origin url : Str) : Bool :=
  url == origin || leadsWith (origin ++ "/".toList) url

/-- An open window on a foreign origin whose query string merely embeds
the worker's origin as a substring. -/
def evilWindow : ClientWindow :=
  { url := "https://evil.example/?u=https://cliffwatch.org".toList,
    canFocus := true }

/-- Counterexample for C8: no open window shares the worker's origin, so
the claim requires opening a new window at the root, yet the handler
focuses the foreign window and opens nothing — `src/sw.js:188` tests
`client.url.includes(self.location.origin)`, substring containment, not
origin sharing. -/
theorem notificationClick_shares_origin_cex :
    urlSharesOrigin workerOrigin evilWindow.url = false ∧
    (notificationClickHandler workerOrigin none [evilWindow] true).action =
      .focusClient evilWindow ∧
    (notificationClickHandler workerOrigin none [evilWindow] true).action ≠
      .openWindow rootPath := by
  decide

/-- C8 (amended): on a notification click the handler dismisses the
notification and scans every open window (controlled or not). If some
window's URL CONTAINS the worker's origin as a substring (the code's
test, not true origin sharing), the first such window is focused — no
new window opens; otherwise, when the platform provides `openWindow`, a
new window opens at the notification's `data.url`, which resolves to the
root `/` when absent. -/
theorem notificationClick_focus_or_open (origin : Str)
    (dataUrl : Option Str) (windows : List ClientWindow) (canOpen : Bool)
    (hf : ∀ w ∈ windows, w.canFocus = true) :
    (notificationClickHandler origin dataUrl windows
      canOpen).notificationClosed = true ∧
    (∀ w, windows.find? (fun v => occursIn origin v.url) = some w →
      (notificationClickHandler origin dataUrl windows canOpen).action =
        .focusClient w) ∧
    (windows.find? (fun v => occursIn origin v.url) = none → canOpen = true →
      (notificationClickHandler origin dataUrl windows canOpen).action =
        .openWindow (resolveTargetUrl dataUrl)) ∧
    resolveTargetUrl none = rootPath := by
  refine ⟨?_, ?_, ?_, rfl⟩
  · unfold notificationClickHandler
    cases h : windows.find? (fun w => occursIn origin w.url && w.canFocus)
      with
    | some w => simp [h]
    | none => cases canOpen <;> simp [h]
  · intro w hw
    have h2 : windows.find? (fun v => occursIn origin v.url && v.canFocus)
        = some w := by
      rw [find_focus_eq_find_url hf, hw]
    simp [notificationClickHandler, h2]
  · intro hnone hcan
    subst hcan
    have h2 : windows.find? (fun v => occursIn origin v.url && v.canFocus)
        = none := by
      rw [find_focus_eq_find_url hf, hnone]
    simp [notificationClickHandler, h2]

/-- An open window on an unrelated origin. -/
def farWindow : ClientWindow :=
  { url := "https://other.example/page".toList, canFocus := true }

/-- Witness for C8: with only an unrelated window open and no `data.url`,
the click closes the notification and opens a new window at the root. -/
theorem notificationClick_focus_or_open_witness :
    (notificationClickHandler workerOrigin none [farWindow]
      true).notificationClosed = true ∧
    (notificationClickHandler workerOrigin none [farWindow] true).action =
      .openWindow (resolveTargetUrl none) :=
  ⟨(notificationClick_focus_or_open workerOrigin none [farWindow] true
      (by decide)).1,
   (notificationClick_focus_or_open workerOrigin none [farWindow] true
      (by decide)).2.2.1 (by decide) rfl⟩

/-- C10: during fetch handling, every entry either strategy writes into
the CacheStore carries a success response — non-success network responses
are returned to the caller but never stored (`src/sw.js:90` and
`src/sw.js:129`). -/
theorem written_entries_are_ok (net : Option Response) (req : Request)
    (c : Cache) :
    (writtenByFetch net req c).all (fun e => e.2.ok) = true := by
  have hnf : ∀ url, (networkFirstStrategy net url c).written.all
      (fun e => e.2.ok) = true := by
    intro url
    cases net with
    | none =>
      unfold networkFirstStrategy
      cases h1 : cacheGet c url <;> cases h2 : cacheGet c indexHtmlKey <;>
        simp [h1, h2]
    | some r => cases hr : r.ok <;> simp [networkFirstStrategy, hr]
  have hcf : ∀ url, (cacheFirstStrategy net url c).written.all
      (fun e => e.2.ok) = true := by
    intro url
    unfold cacheFirstStrategy
    cases h1 : cacheGet c url with
    | some hit => simp
    | none =>
      cases net with
      | none => simp
      | some r =>
        cases hg : r.ok && r.respType == basicType with
        | false => simp [hg]
        | true =>
          have hok : r.ok = true := by
            cases hr : r.ok
            · rw [hr] at hg
              simp at hg
            · rfl
          dsimp only
          rw [if_pos hg]
          simp [List.all_cons, hok]
  unfold writtenByFetch handleFetchEvent
  cases hm : req.method == getMethod with
  | false => simp
  | true =>
    cases hl : isLiveUrl req.url with
    | true => simp [hl]
    | false =>
      cases hn : isNavigationReq req <;> simp [hl, hn, hnf, hcf]
